import Mathlib

/-!
Verification development for the `coding_efficency` frontend repository.

The development embeds, as executable Lean definitions, the parts of the
code that the specification talks about:

* `src/frontend/src/utils/auth.js` — cookie / localStorage helpers
  (`getToken`, `setToken`, `getUserInfo`, ...), modelled over an explicit
  `Browser` state (cookie attributes such as `expires` / `secure` /
  `sameSite` are elided; they do not affect key/value visibility).
* `src/frontend/src/utils/request.js` — the axios response interceptor
  with its `isRefreshing` flag and `requests` retry queue, modelled as a
  state machine (`RequestJs`).
* `src/frontend/src/api/index.js` — the second axios instance with the
  `_retry` flag, `failedQueue` and `processQueue`, modelled as a state
  machine (`ApiIndex`).
* `src/frontend/src/store/modules/auth.js` — the Vuex auth module's
  `refreshToken` action and `CLEAR_AUTH` mutation.

JavaScript's `JSON.stringify` / `JSON.parse` are modelled by an executable
serializer and recursive-descent parser over a `Json` inductive (numbers
are modelled as integers, string escapes restricted to the common ones; a
thrown `SyntaxError` is modelled as `Except.error`).
-/

/-- Key/value store (cookie jar, `localStorage`, `sessionStorage`). -/
abbrev Store := List (String × String)

/-- Read a key from a store. -/
def storeGet (st : Store) (k : String) : Option String :=
  match st with
  | [] => none
  | (k2, v) :: rest => if k2 = k then some v else storeGet rest k

/-- Write a key into a store. -/
def storeSet (st : Store) (k v : String) : Store :=
  match st with
  | [] => [(k, v)]
  | (k2, v2) :: rest => if k2 = k then (k, v) :: rest else (k2, v2) :: storeSet rest k v

/-- Delete a key from a store. -/
def storeRemove (st : Store) (k : String) : Store :=
  match st with
  | [] => []
  | (k2, v2) :: rest => if k2 = k then storeRemove rest k else (k2, v2) :: storeRemove rest k

/-- Prefix test on character lists (pattern first). -/
def startsWithCh : List Char → List Char → Bool
  | [], _ => true
  | _ :: _, [] => false
  | p :: ps, c :: cs => p == c && startsWithCh ps cs

/-- Contiguous-substring test on character lists (pattern first). -/
def hasSubstrCh (pat : List Char) : List Char → Bool
  | [] => startsWithCh pat []
  | c :: cs => startsWithCh pat (c :: cs) || hasSubstrCh pat cs

/-- JS `s.includes(sub)`. -/
def jsIncludes (s sub : String) : Bool :=
  hasSubstrCh sub.toList s.toList

/-- JS `x || d` on an optional string: `null` / `undefined` / `""` are falsy. -/
def jsOr (x : Option String) (d : String) : String :=
  match x with
  | some s => if s = "" then d else s
  | none => d

/-- JS truthiness of an optional string. -/
def jsTruthy (x : Option String) : Bool :=
  match x with
  | some s => s ≠ ""
  | none => false

/-! ## A model of JSON values, `JSON.stringify` and `JSON.parse` -/

/-- JSON values (numbers modelled as integers). -/
inductive Json where
  | null
  | bool (b : Bool)
  | num (n : Int)
  | str (s : String)
  | arr (items : List Json)
  | obj (fields : List (String × Json))
deriving Repr

/-- Escape `"` and `\` in a string body. -/
def escapeChars : List Char → List Char
  | [] => []
  | c :: cs => if c == '\"' || c == '\\' then '\\' :: c :: escapeChars cs else c :: escapeChars cs

mutual

/-- `JSON.stringify` on the model. -/
def jsonStringify : Json → String
  | .null => "null"
  | .bool true => "true"
  | .bool false => "false"
  | .num n => toString n
  | .str s => "\"" ++ String.mk (escapeChars s.toList) ++ "\""
  | .arr items => "[" ++ stringifyItems items ++ "]"
  | .obj fields => "\x7b" ++ stringifyFields fields ++ "\x7d"

def stringifyItems : List Json → String
  | [] => ""
  | [v] => jsonStringify v
  | v :: vs => jsonStringify v ++ "," ++ stringifyItems vs

def stringifyFields : List (String × Json) → String
  | [] => ""
  | [(k, v)] => "\"" ++ String.mk (escapeChars k.toList) ++ "\":" ++ jsonStringify v
  | (k, v) :: fs =>
      "\"" ++ String.mk (escapeChars k.toList) ++ "\":" ++ jsonStringify v ++ "," ++ stringifyFields fs

end

/-- Drop JSON whitespace. -/
def skipWs (cs : List Char) : List Char :=
  cs.dropWhile (fun c => c == ' ' || c == '\n' || c == '\t' || c == '\r')

/-- Consume an exact literal (`ull` of `null`, ...). -/
def parseLit : List Char → List Char → Option (List Char)
  | [], cs => some cs
  | _ :: _, [] => none
  | l :: ls, c :: cs => if l == c then parseLit ls cs else none

/-- Parse the body of a JSON string after the opening quote; returns the
decoded characters and the remainder after the closing quote. -/
def parseStrCh : List Char → Except String (List Char × List Char)
  | [] => .error "unterminated string"
  | c :: cs =>
    if c == '\"' then .ok ([], cs)
    else if c == '\\' then
      match cs with
      | [] => .error "bad escape"
      | e :: cs2 =>
        let dec : Except String Char :=
          if e == '\"' then .ok '\"'
          else if e == '\\' then .ok '\\'
          else if e == '/' then .ok '/'
          else if e == 'n' then .ok '\n'
          else if e == 't' then .ok '\t'
          else if e == 'r' then .ok '\r'
          else .error "unsupported escape"
        match dec with
        | .error m => .error m
        | .ok ch =>
          match parseStrCh cs2 with
          | .error m => .error m
          | .ok (s, r) => .ok (ch :: s, r)
    else
      match parseStrCh cs with
      | .error m => .error m
      | .ok (s, r) => .ok (c :: s, r)

/-- Consume a run of decimal digits. -/
def digitsToNat (acc : Nat) : List Char → Nat × List Char
  | [] => (acc, [])
  | c :: cs => if c.isDigit then digitsToNat (acc * 10 + (c.toNat - 48)) cs else (acc, c :: cs)

mutual

/-- Fueled recursive-descent parser for a JSON value. -/
def parseVal : Nat → List Char → Except String (Json × List Char)
  | 0, _ => .error "fuel exhausted"
  | fuel + 1, cs =>
    match skipWs cs with
    | [] => .error "unexpected end of input"
    | c :: cs1 =>
      if c == 'n' then
        match parseLit ['u', 'l', 'l'] cs1 with
        | some r => .ok (.null, r)
        | none => .error "bad literal"
      else if c == 't' then
        match parseLit ['r', 'u', 'e'] cs1 with
        | some r => .ok (.bool true, r)
        | none => .error "bad literal"
      else if c == 'f' then
        match parseLit ['a', 'l', 's', 'e'] cs1 with
        | some r => .ok (.bool false, r)
        | none => .error "bad literal"
      else if c == '\"' then
        match parseStrCh cs1 with
        | .error m => .error m
        | .ok (s, r) => .ok (.str (String.mk s), r)
      else if c == '-' then
        match cs1 with
        | d :: _ =>
          if d.isDigit then
            match digitsToNat 0 cs1 with
            | (n, r) => .ok (.num (-(n : Int)), r)
          else .error "bad number"
        | [] => .error "bad number"
      else if c.isDigit then
        match digitsToNat 0 (c :: cs1) with
        | (n, r) => .ok (.num (n : Int), r)
      else if c == '[' then
        match skipWs cs1 with
        | ']' :: r => .ok (.arr [], r)
        | _ =>
          match parseArrItems fuel cs1 with
          | .error m => .error m
          | .ok (vs, r) => .ok (.arr vs, r)
      else if c == '\x7b' then
        match skipWs cs1 with
        | '\x7d' :: r => .ok (.obj [], r)
        | _ =>
          match parseObjItems fuel cs1 with
          | .error m => .error m
          | .ok (fs, r) => .ok (.obj fs, r)
      else .error "unexpected character"

/-- Parse one-or-more array items up to the closing bracket. -/
def parseArrItems : Nat → List Char → Except String (List Json × List Char)
  | 0, _ => .error "fuel exhausted"
  | fuel + 1, cs =>
    match parseVal fuel cs with
    | .error m => .error m
    | .ok (v, r) =>
      match skipWs r with
      | ',' :: r2 =>
        match parseArrItems fuel r2 with
        | .error m => .error m
        | .ok (vs, r3) => .ok (v :: vs, r3)
      | ']' :: r2 => .ok ([v], r2)
      | _ => .error "expected comma or closing bracket"

/-- Parse one-or-more object fields up to the closing brace. -/
def parseObjItems : Nat → List Char → Except String (List (String × Json) × List Char)
  | 0, _ => .error "fuel exhausted"
  | fuel + 1, cs =>
    match skipWs cs with
    | '\"' :: cs1 =>
      match parseStrCh cs1 with
      | .error m => .error m
      | .ok (k, r) =>
        match skipWs r with
        | ':' :: r2 =>
          match parseVal fuel r2 with
          | .error m => .error m
          | .ok (v, r3) =>
            match skipWs r3 with
            | ',' :: r4 =>
              match parseObjItems fuel r4 with
              | .error m => .error m
              | .ok (fs, r5) => .ok ((String.mk k, v) :: fs, r5)
            | '\x7d' :: r4 => .ok ([(String.mk k, v)], r4)
            | _ => .error "expected comma or closing brace"
        | _ => .error "expected colon"
    | _ => .error "expected object key"

end

/-- `JSON.parse` on the model; `.error` models a thrown `SyntaxError`. -/
def jsonParse (s : String) : Except String Json :=
  match parseVal (s.length + 1) s.toList with
  | .error m => .error m
  | .ok (v, rest) => if skipWs rest = [] then .ok v else .error "trailing characters"

/-! ## Browser-local persistence (`src/frontend/src/utils/auth.js`) -/

/-- The browser-local persistence visible to `utils/auth.js`. -/
structure Browser where
  cookies : Store
  localStorage : Store
  sessionStorage : Store
deriving Repr, DecidableEq

def emptyBrowser : Browser := ⟨[], [], []⟩

namespace UtilsAuth

def TokenKey : String := "coding_efficiency_token"

def RefreshTokenKey : String := "coding_efficiency_refresh_token"

/-- `getToken()`: read the access-token cookie. -/
def getToken (b : Browser) : Option String :=
  storeGet b.cookies TokenKey

/-- `setToken(token)`: write the access-token cookie. -/
def setToken (b : Browser) (token : String) : Browser :=
  { b with cookies := storeSet b.cookies TokenKey token }

/-- `removeToken()`: remove both token cookies. -/
def removeToken (b : Browser) : Browser :=
  { b with cookies := storeRemove (storeRemove b.cookies TokenKey) RefreshTokenKey }

/-- `getRefreshToken()`: read the refresh-token cookie. -/
def getRefreshToken (b : Browser) : Option String :=
  storeGet b.cookies RefreshTokenKey

/-- `setRefreshToken(refreshToken)`: write the refresh-token cookie. -/
def setRefreshToken (b : Browser) (refreshToken : String) : Browser :=
  { b with cookies := storeSet b.cookies RefreshTokenKey refreshToken }

/-- `removeUserInfo()`: drop the cached profile from localStorage. -/
def removeUserInfo (b : Browser) : Browser :=
  { b with localStorage := storeRemove b.localStorage "user_info" }

/-- `clearAuth()`: remove both token cookies, the cached profile, and all of
sessionStorage. -/
def clearAuth (b : Browser) : Browser :=
  let b1 := removeToken b
  { b1 with localStorage := storeRemove b1.localStorage "user_info", sessionStorage := [] }

/-- `setUserInfo(userInfo)`: store the profile as JSON under `user_info`.
(`JSON.stringify` cannot throw on `Json` values, so the try/catch is
invisible here.) -/
def setUserInfo (b : Browser) (userInfo : Json) : Browser :=
  { b with localStorage := storeSet b.localStorage "user_info" (jsonStringify userInfo) }

/-- The body of the `try` block of `getUserInfo()`:
`const userInfo = localStorage.getItem('user_info'); return userInfo ? JSON.parse(userInfo) : null`.
`.error` models an exception escaping the body (thrown by `JSON.parse`). -/
def getUserInfoBody (b : Browser) : Except String (Option Json) :=
  match storeGet b.localStorage "user_info" with
  | none => .ok none
  | some s =>
    if s = "" then .ok none
    else
      match jsonParse s with
      | .error m => .error m
      | .ok v => .ok (some v)

/-- `getUserInfo()`: the try/catch wrapper — an exception from the body is
caught and turned into `null`. -/
def getUserInfo (b : Browser) : Option Json :=
  match getUserInfoBody b with
  | .ok v => v
  | .error _ => none

end UtilsAuth

/-! ## The response interceptor of `src/frontend/src/utils/request.js`

The error branch of the interceptor (lines 85-172) is embedded as a state
machine. The module-level variables `isRefreshing` / `requests` become the
machine state; each delivery of the event loop (a response error reaching
the interceptor, or the promise of `store.dispatch('auth/refreshToken')`
settling) becomes one atomic step that updates the state and emits a list
of observable actions. `refreshing = some id` plays the role of
`isRefreshing = true` together with the closure variable `config` of the
request that initiated the refresh; the refresh-settled events are only
enabled (`some`-valued) while such a refresh is in flight, since the
`.then` / `.catch` continuations exist only then. -/

namespace RequestJs

/-- A response error as seen by the interceptor: the identity of the
failing request, `error.response.status`, `error.config.url`, and
`error.response.data.message`. -/
structure ErrResponse where
  id : Nat
  status : Nat
  url : String
  dataMessage : Option String
deriving Repr, DecidableEq

/-- Observable actions of the interceptor. -/
inductive Action where
  /-- `store.dispatch('auth/refreshToken')` is invoked. -/
  | startRefresh
  /-- a callback for the request is pushed onto `requests`. -/
  | enqueue (id : Nat)
  /-- `requests.forEach(cb => cb(newToken))`: every queued callback runs, in
  queue order; each one sets the request's Authorization header to `auth`
  and resolves its promise with `service(config)` (a re-send). -/
  | replayQueued (ids : List Nat) (auth : String)
  /-- the request that initiated the refresh is re-sent with header `auth`. -/
  | retryCurrent (id : Nat) (auth : String)
  /-- `store.dispatch('auth/resetToken')`. -/
  | resetToken
  /-- `router.push('/login')`. -/
  | redirectLogin
  /-- `ElMessage({ message, type: 'error' })`. -/
  | toast (message : String)
  /-- the interceptor settles the request's promise with a rejection. -/
  | reject (id : Nat)
deriving Repr, DecidableEq

/-- The module-level state: `refreshing = some id` iff `isRefreshing` is
`true`, with `id` the request whose handler initiated the refresh;
`requests` is the retry queue, in push order. -/
structure ModuleState where
  refreshing : Option Nat
  requests : List Nat
deriving Repr, DecidableEq

def initState : ModuleState := ⟨none, []⟩

/-- The `switch (status)` of lines 126-158: the toast message (`data.message`
falls back through `||` for 400 and the default case). -/
def switchMessage (status : Nat) (dataMessage : Option String) : String :=
  if status = 400 then jsOr dataMessage "请求参数错误"
  else if status = 401 then "未授权，请重新登录"
  else if status = 403 then "权限不足，拒绝访问"
  else if status = 404 then "请求的资源不存在"
  else if status = 500 then "服务器内部错误"
  else if status = 502 then "网关错误"
  else if status = 503 then "服务不可用"
  else if status = 504 then "网关超时"
  else jsOr dataMessage ("连接错误" ++ toString status)

/-- The error handler for one response error (lines 85-172): for a 401 not
from the refresh endpoint, either start a refresh (when idle) or push the
request onto the queue; every other error falls to the status switch,
where a 401 from the refresh endpoint additionally resets the token and
redirects to login, and then shows a toast and rejects. -/
def handleError (st : ModuleState) (e : ErrResponse) : ModuleState × List Action :=
  if e.status = 401 ∧ jsIncludes e.url "/auth/refresh" = false then
    match st.refreshing with
    | none => ({ st with refreshing := some e.id }, [.startRefresh])
    | some _ => ({ st with requests := st.requests ++ [e.id] }, [.enqueue e.id])
  else
    let side : List Action :=
      if e.status = 401 ∧ jsIncludes e.url "/auth/refresh" = true then
        [.resetToken, .redirectLogin]
      else []
    (st, side ++ [.toast (switchMessage e.status e.dataMessage), .reject e.id])

/-- The `.then` of the refresh dispatch (lines 98-106): clear `isRefreshing`,
run every queued callback with the new token (each re-sends with header
`Bearer newToken`), empty the queue, then re-send the initiating request
with the new header. Only enabled while a refresh is in flight. -/
def handleRefreshSuccess (st : ModuleState) (newToken : String) :
    Option (ModuleState × List Action) :=
  match st.refreshing with
  | none => none
  | some cur =>
    some (⟨none, []⟩,
      [.replayQueued st.requests ("Bearer " ++ newToken),
       .retryCurrent cur ("Bearer " ++ newToken)])

/-- The `.catch` of the refresh dispatch (lines 107-114): clear
`isRefreshing`, set `requests = []` (the queued callbacks are discarded
without being invoked — their promises are never settled), reset the
token, redirect to login, and reject the initiating request. -/
def handleRefreshFailure (st : ModuleState) : Option (ModuleState × List Action) :=
  match st.refreshing with
  | none => none
  | some cur => some (⟨none, []⟩, [.resetToken, .redirectLogin, .reject cur])

/-- Event-loop deliveries relevant to the interceptor. -/
inductive Event where
  | respError (e : ErrResponse)
  | refreshSuccess (newToken : String)
  | refreshFailure
deriving Repr, DecidableEq

def step (st : ModuleState) : Event → Option (ModuleState × List Action)
  | .respError e => some (handleError st e)
  | .refreshSuccess t => handleRefreshSuccess st t
  | .refreshFailure => handleRefreshFailure st

/-- Run a sequence of event deliveries, collecting the emitted actions. -/
def exec (st : ModuleState) : List Event → Option (ModuleState × List Action)
  | [] => some (st, [])
  | ev :: evs =>
    (step st ev).bind fun p => (exec p.1 evs).map fun q => (q.1, p.2 ++ q.2)

/-- Does the action settle (replay or reject) the promise of request `i`? -/
def settles (a : Action) (i : Nat) : Bool :=
  match a with
  | .replayQueued ids _ => ids.contains i
  | .retryCurrent j _ => j == i
  | .reject j => j == i
  | _ => false

/-- Number of refresh calls started in an action log. -/
def countStart : List Action → Nat
  | [] => 0
  | .startRefresh :: acts => countStart acts + 1
  | _ :: acts => countStart acts

/-- Number of refresh completions among delivered events. -/
def countDone : List Event → Nat
  | [] => 0
  | .refreshSuccess _ :: evs => countDone evs + 1
  | .refreshFailure :: evs => countDone evs + 1
  | .respError _ :: evs => countDone evs

/-- Refreshes in flight in a state. -/
def inflight (st : ModuleState) : Nat := if st.refreshing.isSome then 1 else 0

/-- Ids pushed onto the queue in an action log, in order. -/
def enqueueIds : List Action → List Nat
  | [] => []
  | .enqueue i :: acts => i :: enqueueIds acts
  | _ :: acts => enqueueIds acts

end RequestJs

/-! ## The response interceptor of `src/frontend/src/api/index.js`

Same modelling discipline as `RequestJs`: the module variables
`isRefreshing` / `failedQueue` become the machine state; `refreshing =
some id` stands for `isRefreshing = true` together with the
`originalRequest` held by the handler that initiated the refresh. The
`await store.dispatch('auth/refreshToken')` settling (or the synchronous
`throw` when no refresh token exists) is delivered as a separate event;
both failure causes land in the same `catch` block. -/

namespace ApiIndex

/-- `error.config`: the failing request — its identity, URL, and whether
`originalRequest._retry` is set (absent models `false`). -/
structure ReqConfig where
  id : Nat
  url : String
  retry : Bool
deriving Repr, DecidableEq

/-- A response error as seen by the interceptor. -/
structure ErrResponse where
  config : ReqConfig
  status : Nat
  dataMessage : Option String
deriving Repr, DecidableEq

/-- Observable actions of the interceptor. -/
inductive Action where
  /-- `ElMessage.error(message)`. -/
  | toast (message : String)
  /-- `clearAuth()` from `utils/auth.js`. -/
  | clearAuth
  /-- `router.push('/login')`. -/
  | redirectLogin
  /-- the request's promise settles with a rejection. -/
  | reject (id : Nat)
  /-- `failedQueue.push({ resolve, reject })` for the request. -/
  | enqueue (id : Nat)
  /-- `originalRequest._retry = true`. -/
  | markRetry (id : Nat)
  /-- `store.dispatch('auth/refreshToken')` is awaited. -/
  | startRefresh
  /-- `processQueue(null, token)`: every queued promise resolves with the
  token, in queue order; each `.then` sets the request's Authorization
  header to `auth` and re-sends it. -/
  | resolveQueued (ids : List Nat) (auth : String)
  /-- the request that initiated the refresh is re-sent with header `auth`. -/
  | retryCurrent (id : Nat) (auth : String)
  /-- `processQueue(error)`: every queued promise rejects, in queue order. -/
  | rejectQueued (ids : List Nat)
deriving Repr, DecidableEq

/-- Module state: `refreshing = some id` iff `isRefreshing = true`, with
`id` the request that initiated the refresh; `failedQueue` in push order. -/
structure ModuleState where
  refreshing : Option Nat
  failedQueue : List Nat
deriving Repr, DecidableEq

def initState : ModuleState := ⟨none, []⟩

/-- The error handler for one response error (lines 68-171). The 401 case
checks, in order: the refresh endpoint itself (logout), the 云效-API
carve-out for `/repositories` / `/integrations` (toast only), the
`_retry` guard (logout), the `isRefreshing` queueing, and otherwise marks
`_retry`, sets `isRefreshing` and starts the refresh. 403 / 404 / 500
and the default case show toasts; every path rejects the promise unless
it was queued or re-sent. -/
def handleError (st : ModuleState) (e : ErrResponse) : ModuleState × List Action :=
  if e.status = 401 then
    if jsIncludes e.config.url "/auth/refresh" = true then
      (st, [.toast "登录已过期，请重新登录", .clearAuth, .redirectLogin, .reject e.config.id])
    else if jsIncludes e.config.url "/repositories" = true ∨
            jsIncludes e.config.url "/integrations" = true then
      (st, [.toast (jsOr e.dataMessage "访问云效API失败，请检查集成配置"), .reject e.config.id])
    else if e.config.retry = true then
      (st, [.toast "登录已过期，请重新登录", .clearAuth, .redirectLogin, .reject e.config.id])
    else
      match st.refreshing with
      | some _ => ({ st with failedQueue := st.failedQueue ++ [e.config.id] }, [.enqueue e.config.id])
      | none => (⟨some e.config.id, st.failedQueue⟩, [.markRetry e.config.id, .startRefresh])
  else if e.status = 403 then (st, [.toast "没有权限访问该资源", .reject e.config.id])
  else if e.status = 404 then (st, [.toast "请求的资源不存在", .reject e.config.id])
  else if e.status = 500 then (st, [.toast "服务器内部错误", .reject e.config.id])
  else
    (st, [.toast (jsOr e.dataMessage ("请求失败 (" ++ toString e.status ++ ")")), .reject e.config.id])

/-- Successful refresh (lines 136-141 with the `finally`): resolve every
queued promise with the new token (each re-sends with header
`Bearer newToken`), re-send the initiating request with the new header,
clear `isRefreshing`. Only enabled while a refresh is in flight. -/
def handleRefreshSuccess (st : ModuleState) (newToken : String) :
    Option (ModuleState × List Action) :=
  match st.refreshing with
  | none => none
  | some cur =>
    some (⟨none, []⟩,
      [.resolveQueued st.failedQueue ("Bearer " ++ newToken),
       .retryCurrent cur ("Bearer " ++ newToken)])

/-- Failed refresh — the `catch` block (lines 142-147) with the `finally`:
`processQueue(refreshError)` rejects every queued promise, then toast,
`clearAuth()`, redirect to login, reject the initiating request, clear
`isRefreshing`. -/
def handleRefreshFailure (st : ModuleState) : Option (ModuleState × List Action) :=
  match st.refreshing with
  | none => none
  | some cur =>
    some (⟨none, []⟩,
      [.rejectQueued st.failedQueue, .toast "登录已过期，请重新登录",
       .clearAuth, .redirectLogin, .reject cur])

/-- Event-loop deliveries relevant to the interceptor. -/
inductive Event where
  | respError (e : ErrResponse)
  | refreshSuccess (newToken : String)
  | refreshFailure
deriving Repr, DecidableEq

def step (st : ModuleState) : Event → Option (ModuleState × List Action)
  | .respError e => some (handleError st e)
  | .refreshSuccess t => handleRefreshSuccess st t
  | .refreshFailure => handleRefreshFailure st

/-- Run a sequence of event deliveries, collecting the emitted actions. -/
def exec (st : ModuleState) : List Event → Option (ModuleState × List Action)
  | [] => some (st, [])
  | ev :: evs =>
    (step st ev).bind fun p => (exec p.1 evs).map fun q => (q.1, p.2 ++ q.2)

/-- Number of refresh calls started in an action log. -/
def countStart : List Action → Nat
  | [] => 0
  | .startRefresh :: acts => countStart acts + 1
  | _ :: acts => countStart acts

/-- Number of refresh completions among delivered events. -/
def countDone : List Event → Nat
  | [] => 0
  | .refreshSuccess _ :: evs => countDone evs + 1
  | .refreshFailure :: evs => countDone evs + 1
  | .respError _ :: evs => countDone evs

/-- Refreshes in flight in a state. -/
def inflight (st : ModuleState) : Nat := if st.refreshing.isSome then 1 else 0

/-- Ids pushed onto the queue in an action log, in order. -/
def enqueueIds : List Action → List Nat
  | [] => []
  | .enqueue i :: acts => i :: enqueueIds acts
  | _ :: acts => enqueueIds acts

/-- Does the action settle (replay or reject) the promise of request `i`? -/
def settles (a : Action) (i : Nat) : Bool :=
  match a with
  | .resolveQueued ids _ => ids.contains i
  | .rejectQueued ids => ids.contains i
  | .retryCurrent j _ => j == i
  | .reject j => j == i
  | _ => false

end ApiIndex

/-! ## Outgoing-request interceptors (C7)

`src/frontend/src/utils/request.js` lines 14-33 and
`src/frontend/src/api/index.js` lines 16-34. -/

/-- An outgoing request config: its URL and header map. -/
structure OutConfig where
  url : String
  headers : Store
deriving Repr, DecidableEq

namespace RequestJs

/-- The request interceptor of `request.js`: when `getToken()` is truthy,
set `Authorization: Bearer <token>`; then always set `Content-Type`. -/
def requestInterceptor (b : Browser) (config : OutConfig) : OutConfig :=
  let c1 :=
    match UtilsAuth.getToken b with
    | some token =>
      if token = "" then config
      else { config with headers := storeSet config.headers "Authorization" ("Bearer " ++ token) }
    | none => config
  { c1 with headers := storeSet c1.headers "Content-Type" "application/json" }

end RequestJs

namespace ApiIndex

/-- The request interceptor of `api/index.js`: a request whose URL contains
`/auth/refresh` is returned unchanged (so as not to overwrite an already
set Authorization header); otherwise, when `getToken()` is truthy, set
`Authorization: Bearer <token>`. -/
def requestInterceptor (b : Browser) (config : OutConfig) : OutConfig :=
  if jsIncludes config.url "/auth/refresh" = true then config
  else
    match UtilsAuth.getToken b with
    | some token =>
      if token = "" then config
      else { config with headers := storeSet config.headers "Authorization" ("Bearer " ++ token) }
    | none => config

end ApiIndex

/-! ## The Vuex auth module (`src/frontend/src/store/modules/auth.js`) -/

namespace StoreAuth

/-- The module's `state`. -/
structure AuthState where
  token : Option String
  refreshToken : Option String
  user : Option Json
  permissions : List String
deriving Repr

/-- `SET_TOKEN` mutation. -/
def SET_TOKEN (st : AuthState) (token : String) : AuthState :=
  { st with token := some token }

/-- `CLEAR_AUTH` mutation: reset the four state fields and remove the
cached profile from localStorage (`removeUserInfo()`). -/
def CLEAR_AUTH (_st : AuthState) (b : Browser) : AuthState × Browser :=
  (⟨none, none, none, []⟩, UtilsAuth.removeUserInfo b)

/-- The `refreshToken` action (lines 124-148). `apiResult` is the outcome
of the `refreshToken()` API call: `.ok access_token` when it resolves,
`.error ()` when it rejects. The returned `Except` is the action's own
outcome (`.error ()` models the re-thrown exception). When
`state.refreshToken` is falsy the action clears auth and throws without
calling the API; on API success it commits `SET_TOKEN` and writes the
access-token cookie; on API failure it clears auth and re-throws. -/
def refreshTokenAction (st : AuthState) (b : Browser) (apiResult : Except Unit String) :
    AuthState × Browser × Except Unit String :=
  if jsTruthy st.refreshToken = false then
    let (st1, b1) := CLEAR_AUTH st b
    (st1, UtilsAuth.removeToken b1, .error ())
  else
    match apiResult with
    | .ok access_token =>
      (SET_TOKEN st access_token, UtilsAuth.setToken b access_token, .ok access_token)
    | .error _ =>
      let (st1, b1) := CLEAR_AUTH st b
      (st1, UtilsAuth.removeToken b1, .error ())

end StoreAuth

/-- Is some toast shown in a `request.js` action log? -/
def RequestJs.hasToast : List RequestJs.Action → Bool
  | [] => false
  | .toast _ :: _ => true
  | _ :: acts => RequestJs.hasToast acts

/-- Is some toast shown in an `api/index.js` action log? -/
def ApiIndex.hasToast : List ApiIndex.Action → Bool
  | [] => false
  | .toast _ :: _ => true
  | _ :: acts => ApiIndex.hasToast acts

/-! ## Helper lemmas about the machines -/

theorem storeGet_storeSet_self (st : Store) (k v : String) :
    storeGet (storeSet st k v) k = some v := by
  induction st with
  | nil => simp [storeSet, storeGet]
  | cons p rest ih =>
    obtain ⟨k2, v2⟩ := p
    by_cases h : k2 = k <;> simp [storeSet, storeGet, h, ih]

theorem storeGet_storeSet_ne (st : Store) (k k2 v : String) (h : k ≠ k2) :
    storeGet (storeSet st k v) k2 = storeGet st k2 := by
  induction st with
  | nil => simp [storeSet, storeGet, h]
  | cons p rest ih =>
    obtain ⟨k3, v3⟩ := p
    by_cases h3 : k3 = k
    · subst h3
      simp [storeSet, storeGet, h]
    · simp [storeSet, storeGet, h3, ih]

theorem storeGet_storeRemove_self (st : Store) (k : String) :
    storeGet (storeRemove st k) k = none := by
  induction st with
  | nil => simp [storeRemove, storeGet]
  | cons p rest ih =>
    obtain ⟨k2, v2⟩ := p
    by_cases h : k2 = k <;> simp [storeRemove, storeGet, h, ih]

theorem storeGet_storeRemove_ne (st : Store) (k k2 : String) (h : k ≠ k2) :
    storeGet (storeRemove st k) k2 = storeGet st k2 := by
  induction st with
  | nil => simp [storeRemove, storeGet]
  | cons p rest ih =>
    obtain ⟨k3, v3⟩ := p
    by_cases h3 : k3 = k
    · subst h3
      simp [storeRemove, storeGet, h, ih]
    · simp [storeRemove, storeGet, h3, ih]


theorem suffix_append_right {α : Type} {l l2 : List α} (t : List α) (h : l <:+ l2) :
    l ++ t <:+ l2 ++ t := by
  obtain ⟨s, hs⟩ := h
  exact ⟨s, by rw [← hs, List.append_assoc]⟩

theorem rj_countStart_append (l1 l2 : List RequestJs.Action) :
    RequestJs.countStart (l1 ++ l2) = RequestJs.countStart l1 + RequestJs.countStart l2 := by
  induction l1 with
  | nil => simp [RequestJs.countStart]
  | cons a acts ih =>
    cases a <;> simp [RequestJs.countStart, ih]
    all_goals omega

theorem rj_enqueueIds_append (l1 l2 : List RequestJs.Action) :
    RequestJs.enqueueIds (l1 ++ l2) = RequestJs.enqueueIds l1 ++ RequestJs.enqueueIds l2 := by
  induction l1 with
  | nil => simp [RequestJs.enqueueIds]
  | cons a acts ih => cases a <;> simp [RequestJs.enqueueIds, ih]

theorem rj_handleError_inflight (st : RequestJs.ModuleState) (e : RequestJs.ErrResponse) :
    RequestJs.inflight st + RequestJs.countStart (RequestJs.handleError st e).2
      = RequestJs.inflight (RequestJs.handleError st e).1 := by
  by_cases hc : e.status = 401 ∧ jsIncludes e.url "/auth/refresh" = false
  · cases hr : st.refreshing <;>
      simp [RequestJs.handleError, hc, hr, RequestJs.inflight, RequestJs.countStart]
  · by_cases hc2 : e.status = 401 ∧ jsIncludes e.url "/auth/refresh" = true <;>
      simp [RequestJs.handleError, hc, hc2, RequestJs.inflight, RequestJs.countStart]

theorem rj_step_inflight (st st1 : RequestJs.ModuleState) (ev : RequestJs.Event)
    (acts : List RequestJs.Action) (h : RequestJs.step st ev = some (st1, acts)) :
    RequestJs.inflight st + RequestJs.countStart acts
      = RequestJs.inflight st1 + RequestJs.countDone [ev] := by
  cases ev with
  | respError e =>
    have he : RequestJs.handleError st e = (st1, acts) := by
      simpa [RequestJs.step] using h
    have h3 := rj_handleError_inflight st e
    rw [he] at h3
    simpa [RequestJs.countDone] using h3
  | refreshSuccess t =>
    cases hr : st.refreshing with
    | none => simp [RequestJs.step, RequestJs.handleRefreshSuccess, hr] at h
    | some cur =>
      simp [RequestJs.step, RequestJs.handleRefreshSuccess, hr] at h
      obtain ⟨h1, h2⟩ := h
      subst h1
      subst h2
      simp [RequestJs.inflight, RequestJs.countStart, RequestJs.countDone, hr]
  | refreshFailure =>
    cases hr : st.refreshing with
    | none => simp [RequestJs.step, RequestJs.handleRefreshFailure, hr] at h
    | some cur =>
      simp [RequestJs.step, RequestJs.handleRefreshFailure, hr] at h
      obtain ⟨h1, h2⟩ := h
      subst h1
      subst h2
      simp [RequestJs.inflight, RequestJs.countStart, RequestJs.countDone, hr]

theorem rj_countDone_cons (ev : RequestJs.Event) (evs : List RequestJs.Event) :
    RequestJs.countDone (ev :: evs) = RequestJs.countDone [ev] + RequestJs.countDone evs := by
  cases ev <;> simp [RequestJs.countDone] <;> omega

theorem rj_exec_inflight (evs : List RequestJs.Event) :
    ∀ (st0 st : RequestJs.ModuleState) (acts : List RequestJs.Action),
    RequestJs.exec st0 evs = some (st, acts) →
    RequestJs.inflight st0 + RequestJs.countStart acts
      = RequestJs.inflight st + RequestJs.countDone evs := by
  induction evs with
  | nil =>
    intro st0 st acts h
    simp [RequestJs.exec] at h
    obtain ⟨h1, h2⟩ := h
    subst h1
    subst h2
    simp [RequestJs.countStart, RequestJs.countDone]
  | cons ev evs ih =>
    intro st0 st acts h
    simp only [RequestJs.exec] at h
    cases hstep : RequestJs.step st0 ev with
    | none => rw [hstep] at h; simp at h
    | some p =>
      obtain ⟨st1, acts1⟩ := p
      rw [hstep] at h
      simp only [Option.some_bind] at h
      cases hrec : RequestJs.exec st1 evs with
      | none => rw [hrec] at h; simp at h
      | some q =>
        obtain ⟨st2, acts2⟩ := q
        rw [hrec] at h
        simp at h
        obtain ⟨hst, hacts⟩ := h
        subst hst
        subst hacts
        have h1 := rj_step_inflight st0 st1 ev acts1 hstep
        have h2 := ih st1 st2 acts2 hrec
        rw [rj_countStart_append, rj_countDone_cons]
        omega

theorem rj_handleError_queue (st : RequestJs.ModuleState) (e : RequestJs.ErrResponse) :
    (RequestJs.handleError st e).1.requests
      <:+ st.requests ++ RequestJs.enqueueIds (RequestJs.handleError st e).2 := by
  by_cases hc : e.status = 401 ∧ jsIncludes e.url "/auth/refresh" = false
  · cases hr : st.refreshing <;>
      simp [RequestJs.handleError, hc, hr, RequestJs.enqueueIds]
  · by_cases hc2 : e.status = 401 ∧ jsIncludes e.url "/auth/refresh" = true <;>
      simp [RequestJs.handleError, hc, hc2, RequestJs.enqueueIds]

theorem rj_step_queue (st st1 : RequestJs.ModuleState) (ev : RequestJs.Event)
    (acts : List RequestJs.Action) (h : RequestJs.step st ev = some (st1, acts)) :
    st1.requests <:+ st.requests ++ RequestJs.enqueueIds acts := by
  cases ev with
  | respError e =>
    have he : RequestJs.handleError st e = (st1, acts) := by
      simpa [RequestJs.step] using h
    have h3 := rj_handleError_queue st e
    rw [he] at h3
    exact h3
  | refreshSuccess t =>
    cases hr : st.refreshing with
    | none => simp [RequestJs.step, RequestJs.handleRefreshSuccess, hr] at h
    | some cur =>
      simp [RequestJs.step, RequestJs.handleRefreshSuccess, hr] at h
      obtain ⟨h1, h2⟩ := h
      subst h1
      subst h2
      simp
  | refreshFailure =>
    cases hr : st.refreshing with
    | none => simp [RequestJs.step, RequestJs.handleRefreshFailure, hr] at h
    | some cur =>
      simp [RequestJs.step, RequestJs.handleRefreshFailure, hr] at h
      obtain ⟨h1, h2⟩ := h
      subst h1
      subst h2
      simp

theorem rj_exec_queue (evs : List RequestJs.Event) :
    ∀ (st0 st : RequestJs.ModuleState) (acts : List RequestJs.Action),
    RequestJs.exec st0 evs = some (st, acts) →
    st.requests <:+ st0.requests ++ RequestJs.enqueueIds acts := by
  induction evs with
  | nil =>
    intro st0 st acts h
    simp [RequestJs.exec] at h
    obtain ⟨h1, h2⟩ := h
    subst h1
    subst h2
    simp [RequestJs.enqueueIds]
  | cons ev evs ih =>
    intro st0 st acts h
    simp only [RequestJs.exec] at h
    cases hstep : RequestJs.step st0 ev with
    | none => rw [hstep] at h; simp at h
    | some p =>
      obtain ⟨st1, acts1⟩ := p
      rw [hstep] at h
      simp only [Option.some_bind] at h
      cases hrec : RequestJs.exec st1 evs with
      | none => rw [hrec] at h; simp at h
      | some q =>
        obtain ⟨st2, acts2⟩ := q
        rw [hrec] at h
        simp at h
        obtain ⟨hst, hacts⟩ := h
        subst hst
        subst hacts
        have h1 := rj_step_queue st0 st1 ev acts1 hstep
        have h2 := ih st1 st2 acts2 hrec
        have h3 : st1.requests ++ RequestJs.enqueueIds acts2
            <:+ (st0.requests ++ RequestJs.enqueueIds acts1) ++ RequestJs.enqueueIds acts2 :=
          suffix_append_right _ h1
    -- combine: st2.requests <:+ st1.requests ++ E2 <:+ st0.requests ++ (E1 ++ E2)
        rw [rj_enqueueIds_append, ← List.append_assoc]
        exact h2.trans h3

theorem rj_handleError_no_replay (st : RequestJs.ModuleState) (e : RequestJs.ErrResponse)
    (q : List Nat) (a : String) :
    RequestJs.Action.replayQueued q a ∉ (RequestJs.handleError st e).2 := by
  by_cases hc : e.status = 401 ∧ jsIncludes e.url "/auth/refresh" = false
  · cases hr : st.refreshing <;>
      simp [RequestJs.handleError, hc, hr]
  · by_cases hc2 : e.status = 401 ∧ jsIncludes e.url "/auth/refresh" = true <;>
      simp [RequestJs.handleError, hc, hc2]

theorem api_countStart_append (l1 l2 : List ApiIndex.Action) :
    ApiIndex.countStart (l1 ++ l2) = ApiIndex.countStart l1 + ApiIndex.countStart l2 := by
  induction l1 with
  | nil => simp [ApiIndex.countStart]
  | cons a acts ih =>
    cases a <;> simp [ApiIndex.countStart, ih]
    all_goals omega

theorem api_enqueueIds_append (l1 l2 : List ApiIndex.Action) :
    ApiIndex.enqueueIds (l1 ++ l2) = ApiIndex.enqueueIds l1 ++ ApiIndex.enqueueIds l2 := by
  induction l1 with
  | nil => simp [ApiIndex.enqueueIds]
  | cons a acts ih => cases a <;> simp [ApiIndex.enqueueIds, ih]

theorem api_countDone_cons (ev : ApiIndex.Event) (evs : List ApiIndex.Event) :
    ApiIndex.countDone (ev :: evs) = ApiIndex.countDone [ev] + ApiIndex.countDone evs := by
  cases ev <;> simp [ApiIndex.countDone] <;> omega

theorem api_handleError_inflight (st : ApiIndex.ModuleState) (e : ApiIndex.ErrResponse) :
    ApiIndex.inflight st + ApiIndex.countStart (ApiIndex.handleError st e).2
      = ApiIndex.inflight (ApiIndex.handleError st e).1 := by
  unfold ApiIndex.handleError
  repeat' split
  all_goals simp_all [ApiIndex.inflight, ApiIndex.countStart]

theorem api_step_inflight (st st1 : ApiIndex.ModuleState) (ev : ApiIndex.Event)
    (acts : List ApiIndex.Action) (h : ApiIndex.step st ev = some (st1, acts)) :
    ApiIndex.inflight st + ApiIndex.countStart acts
      = ApiIndex.inflight st1 + ApiIndex.countDone [ev] := by
  cases ev with
  | respError e =>
    have he : ApiIndex.handleError st e = (st1, acts) := by
      simpa [ApiIndex.step] using h
    have h3 := api_handleError_inflight st e
    rw [he] at h3
    simpa [ApiIndex.countDone] using h3
  | refreshSuccess t =>
    cases hr : st.refreshing with
    | none => simp [ApiIndex.step, ApiIndex.handleRefreshSuccess, hr] at h
    | some cur =>
      simp [ApiIndex.step, ApiIndex.handleRefreshSuccess, hr] at h
      obtain ⟨h1, h2⟩ := h
      subst h1
      subst h2
      simp [ApiIndex.inflight, ApiIndex.countStart, ApiIndex.countDone, hr]
  | refreshFailure =>
    cases hr : st.refreshing with
    | none => simp [ApiIndex.step, ApiIndex.handleRefreshFailure, hr] at h
    | some cur =>
      simp [ApiIndex.step, ApiIndex.handleRefreshFailure, hr] at h
      obtain ⟨h1, h2⟩ := h
      subst h1
      subst h2
      simp [ApiIndex.inflight, ApiIndex.countStart, ApiIndex.countDone, hr]

theorem api_exec_inflight (evs : List ApiIndex.Event) :
    ∀ (st0 st : ApiIndex.ModuleState) (acts : List ApiIndex.Action),
    ApiIndex.exec st0 evs = some (st, acts) →
    ApiIndex.inflight st0 + ApiIndex.countStart acts
      = ApiIndex.inflight st + ApiIndex.countDone evs := by
  induction evs with
  | nil =>
    intro st0 st acts h
    simp [ApiIndex.exec] at h
    obtain ⟨h1, h2⟩ := h
    subst h1
    subst h2
    simp [ApiIndex.countStart, ApiIndex.countDone]
  | cons ev evs ih =>
    intro st0 st acts h
    simp only [ApiIndex.exec] at h
    cases hstep : ApiIndex.step st0 ev with
    | none => rw [hstep] at h; simp at h
    | some p =>
      obtain ⟨st1, acts1⟩ := p
      rw [hstep] at h
      simp only [Option.some_bind] at h
      cases hrec : ApiIndex.exec st1 evs with
      | none => rw [hrec] at h; simp at h
      | some q =>
        obtain ⟨st2, acts2⟩ := q
        rw [hrec] at h
        simp at h
        obtain ⟨hst, hacts⟩ := h
        subst hst
        subst hacts
        have h1 := api_step_inflight st0 st1 ev acts1 hstep
        have h2 := ih st1 st2 acts2 hrec
        rw [api_countStart_append, api_countDone_cons]
        omega

theorem api_handleError_queue (st : ApiIndex.ModuleState) (e : ApiIndex.ErrResponse) :
    (ApiIndex.handleError st e).1.failedQueue
      <:+ st.failedQueue ++ ApiIndex.enqueueIds (ApiIndex.handleError st e).2 := by
  unfold ApiIndex.handleError
  repeat' split
  all_goals simp_all [ApiIndex.enqueueIds]

theorem api_step_queue (st st1 : ApiIndex.ModuleState) (ev : ApiIndex.Event)
    (acts : List ApiIndex.Action) (h : ApiIndex.step st ev = some (st1, acts)) :
    st1.failedQueue <:+ st.failedQueue ++ ApiIndex.enqueueIds acts := by
  cases ev with
  | respError e =>
    have he : ApiIndex.handleError st e = (st1, acts) := by
      simpa [ApiIndex.step] using h
    have h3 := api_handleError_queue st e
    rw [he] at h3
    exact h3
  | refreshSuccess t =>
    cases hr : st.refreshing with
    | none => simp [ApiIndex.step, ApiIndex.handleRefreshSuccess, hr] at h
    | some cur =>
      simp [ApiIndex.step, ApiIndex.handleRefreshSuccess, hr] at h
      obtain ⟨h1, h2⟩ := h
      subst h1
      subst h2
      simp
  | refreshFailure =>
    cases hr : st.refreshing with
    | none => simp [ApiIndex.step, ApiIndex.handleRefreshFailure, hr] at h
    | some cur =>
      simp [ApiIndex.step, ApiIndex.handleRefreshFailure, hr] at h
      obtain ⟨h1, h2⟩ := h
      subst h1
      subst h2
      simp

theorem api_exec_queue (evs : List ApiIndex.Event) :
    ∀ (st0 st : ApiIndex.ModuleState) (acts : List ApiIndex.Action),
    ApiIndex.exec st0 evs = some (st, acts) →
    st.failedQueue <:+ st0.failedQueue ++ ApiIndex.enqueueIds acts := by
  induction evs with
  | nil =>
    intro st0 st acts h
    simp [ApiIndex.exec] at h
    obtain ⟨h1, h2⟩ := h
    subst h1
    subst h2
    simp [ApiIndex.enqueueIds]
  | cons ev evs ih =>
    intro st0 st acts h
    simp only [ApiIndex.exec] at h
    cases hstep : ApiIndex.step st0 ev with
    | none => rw [hstep] at h; simp at h
    | some p =>
      obtain ⟨st1, acts1⟩ := p
      rw [hstep] at h
      simp only [Option.some_bind] at h
      cases hrec : ApiIndex.exec st1 evs with
      | none => rw [hrec] at h; simp at h
      | some q =>
        obtain ⟨st2, acts2⟩ := q
        rw [hrec] at h
        simp at h
        obtain ⟨hst, hacts⟩ := h
        subst hst
        subst hacts
        have h1 := api_step_queue st0 st1 ev acts1 hstep
        have h2 := ih st1 st2 acts2 hrec
        have h3 : st1.failedQueue ++ ApiIndex.enqueueIds acts2
            <:+ (st0.failedQueue ++ ApiIndex.enqueueIds acts1) ++ ApiIndex.enqueueIds acts2 :=
          suffix_append_right _ h1
        rw [api_enqueueIds_append, ← List.append_assoc]
        exact h2.trans h3

theorem api_handleError_no_resolveQueued (st : ApiIndex.ModuleState) (e : ApiIndex.ErrResponse)
    (q : List Nat) (a : String) :
    ApiIndex.Action.resolveQueued q a ∉ (ApiIndex.handleError st e).2 := by
  unfold ApiIndex.handleError
  repeat' split
  all_goals simp

theorem rj_inflight_le_one (st : RequestJs.ModuleState) : RequestJs.inflight st ≤ 1 := by
  unfold RequestJs.inflight
  split <;> omega

theorem api_inflight_le_one (st : ApiIndex.ModuleState) : ApiIndex.inflight st ≤ 1 := by
  unfold ApiIndex.inflight
  split <;> omega

theorem rj_no_start_while_refreshing (st st1 : RequestJs.ModuleState) (ev : RequestJs.Event)
    (acts : List RequestJs.Action) (c : Nat) (hr : st.refreshing = some c)
    (h : RequestJs.step st ev = some (st1, acts)) :
    RequestJs.countStart acts = 0 := by
  cases ev with
  | respError e =>
    have he : RequestJs.handleError st e = (st1, acts) := by
      simpa [RequestJs.step] using h
    have h3 := rj_handleError_inflight st e
    rw [he] at h3
    have h4 := rj_inflight_le_one st1
    simp only [Prod.fst, Prod.snd] at h3
    have h5 : RequestJs.inflight st = 1 := by simp [RequestJs.inflight, hr]
    rw [h5] at h3
    omega
  | refreshSuccess t =>
    simp [RequestJs.step, RequestJs.handleRefreshSuccess, hr] at h
    obtain ⟨h1, h2⟩ := h
    subst h2
    simp [RequestJs.countStart]
  | refreshFailure =>
    simp [RequestJs.step, RequestJs.handleRefreshFailure, hr] at h
    obtain ⟨h1, h2⟩ := h
    subst h2
    simp [RequestJs.countStart]

theorem api_no_start_while_refreshing (st st1 : ApiIndex.ModuleState) (ev : ApiIndex.Event)
    (acts : List ApiIndex.Action) (c : Nat) (hr : st.refreshing = some c)
    (h : ApiIndex.step st ev = some (st1, acts)) :
    ApiIndex.countStart acts = 0 := by
  cases ev with
  | respError e =>
    have he : ApiIndex.handleError st e = (st1, acts) := by
      simpa [ApiIndex.step] using h
    have h3 := api_handleError_inflight st e
    rw [he] at h3
    have h4 := api_inflight_le_one st1
    simp only [Prod.fst, Prod.snd] at h3
    have h5 : ApiIndex.inflight st = 1 := by simp [ApiIndex.inflight, hr]
    rw [h5] at h3
    omega
  | refreshSuccess t =>
    simp [ApiIndex.step, ApiIndex.handleRefreshSuccess, hr] at h
    obtain ⟨h1, h2⟩ := h
    subst h2
    simp [ApiIndex.countStart]
  | refreshFailure =>
    simp [ApiIndex.step, ApiIndex.handleRefreshFailure, hr] at h
    obtain ⟨h1, h2⟩ := h
    subst h2
    simp [ApiIndex.countStart]

/-! ## Claim theorems -/

/-- C1: In both HTTP clients the token refresh is single-flight. Along any
valid trace from the initial state, the number of refresh calls started
equals the number of completed refreshes plus the refreshes still in
flight, and at most one refresh is ever in flight; no step taken while
`isRefreshing` is set starts another refresh; and a further failing 401
that reaches the refresh logic while `isRefreshing` is set is appended to
the queue (in `request.js`: any 401 whose URL is not the refresh endpoint;
in `api/index.js`: additionally outside the `/repositories` /
`/integrations` carve-outs and without the `_retry` mark, which never
start refreshes either). -/
theorem token_refresh_single_flight :
    (∀ (evs : List RequestJs.Event) (st : RequestJs.ModuleState)
        (acts : List RequestJs.Action),
      RequestJs.exec RequestJs.initState evs = some (st, acts) →
      RequestJs.countStart acts = RequestJs.countDone evs + RequestJs.inflight st
        ∧ RequestJs.inflight st ≤ 1)
    ∧ (∀ (st st1 : RequestJs.ModuleState) (ev : RequestJs.Event)
        (acts : List RequestJs.Action) (c : Nat),
      st.refreshing = some c → RequestJs.step st ev = some (st1, acts) →
      RequestJs.countStart acts = 0)
    ∧ (∀ (st : RequestJs.ModuleState) (e : RequestJs.ErrResponse) (c : Nat),
      st.refreshing = some c → e.status = 401 →
      jsIncludes e.url "/auth/refresh" = false →
      RequestJs.handleError st e
        = ({ st with requests := st.requests ++ [e.id] }, [.enqueue e.id]))
    ∧ (∀ (evs : List ApiIndex.Event) (st : ApiIndex.ModuleState)
        (acts : List ApiIndex.Action),
      ApiIndex.exec ApiIndex.initState evs = some (st, acts) →
      ApiIndex.countStart acts = ApiIndex.countDone evs + ApiIndex.inflight st
        ∧ ApiIndex.inflight st ≤ 1)
    ∧ (∀ (st st1 : ApiIndex.ModuleState) (ev : ApiIndex.Event)
        (acts : List ApiIndex.Action) (c : Nat),
      st.refreshing = some c → ApiIndex.step st ev = some (st1, acts) →
      ApiIndex.countStart acts = 0)
    ∧ (∀ (st : ApiIndex.ModuleState) (e : ApiIndex.ErrResponse) (c : Nat),
      st.refreshing = some c → e.status = 401 →
      jsIncludes e.config.url "/auth/refresh" = false →
      jsIncludes e.config.url "/repositories" = false →
      jsIncludes e.config.url "/integrations" = false →
      e.config.retry = false →
      ApiIndex.handleError st e
        = ({ st with failedQueue := st.failedQueue ++ [e.config.id] },
           [.enqueue e.config.id])) := by
  refine ⟨?_, ?_, ?_, ?_, ?_, ?_⟩
  · intro evs st acts h
    have h1 := rj_exec_inflight evs RequestJs.initState st acts h
    have h2 := rj_inflight_le_one st
    have h0 : RequestJs.inflight RequestJs.initState = 0 := by
      simp [RequestJs.initState, RequestJs.inflight]
    rw [h0] at h1
    exact ⟨by omega, h2⟩
  · intro st st1 ev acts c hr h
    exact rj_no_start_while_refreshing st st1 ev acts c hr h
  · intro st e c hr h401 hinc
    simp [RequestJs.handleError, h401, hinc, hr]
  · intro evs st acts h
    have h1 := api_exec_inflight evs ApiIndex.initState st acts h
    have h2 := api_inflight_le_one st
    have h0 : ApiIndex.inflight ApiIndex.initState = 0 := by
      simp [ApiIndex.initState, ApiIndex.inflight]
    rw [h0] at h1
    exact ⟨by omega, h2⟩
  · intro st st1 ev acts c hr h
    exact api_no_start_while_refreshing st st1 ev acts c hr h
  · intro st e c hr h401 hrf hrep hint hret
    simp [ApiIndex.handleError, h401, hrf, hrep, hint, hret, hr]

/-- Witness for C1 at concrete inputs: a first 401 starts the one refresh
(started = completed + in flight = 1); a second 401 while refreshing is
enqueued without starting a refresh, in both clients. -/
theorem token_refresh_single_flight_witness :
    ((RequestJs.countStart [RequestJs.Action.startRefresh]
        = RequestJs.countDone [RequestJs.Event.respError ⟨1, 401, "/analytics/commits", none⟩]
          + RequestJs.inflight ⟨some 1, []⟩
      ∧ RequestJs.inflight ⟨some 1, []⟩ ≤ 1)
     ∧ RequestJs.countStart [RequestJs.Action.enqueue 2] = 0
     ∧ RequestJs.handleError ⟨some 1, []⟩ ⟨2, 401, "/analytics/users", none⟩
         = (⟨some 1, [2]⟩, [.enqueue 2]))
    ∧ ((ApiIndex.countStart [ApiIndex.Action.markRetry 1, ApiIndex.Action.startRefresh]
        = ApiIndex.countDone
            [ApiIndex.Event.respError ⟨⟨1, "/analytics/commits", false⟩, 401, none⟩]
          + ApiIndex.inflight ⟨some 1, []⟩
      ∧ ApiIndex.inflight ⟨some 1, []⟩ ≤ 1)
     ∧ ApiIndex.countStart [ApiIndex.Action.enqueue 2] = 0
     ∧ ApiIndex.handleError ⟨some 1, []⟩ ⟨⟨2, "/analytics/users", false⟩, 401, none⟩
         = (⟨some 1, [2]⟩, [.enqueue 2])) := by
  refine ⟨⟨?_, ?_, ?_⟩, ⟨?_, ?_, ?_⟩⟩
  · exact token_refresh_single_flight.1
      [.respError ⟨1, 401, "/analytics/commits", none⟩] ⟨some 1, []⟩
      [RequestJs.Action.startRefresh] rfl
  · exact token_refresh_single_flight.2.1 ⟨some 1, []⟩ ⟨some 1, [2]⟩
      (.respError ⟨2, 401, "/analytics/users", none⟩) [RequestJs.Action.enqueue 2] 1 rfl rfl
  · exact token_refresh_single_flight.2.2.1 ⟨some 1, []⟩ ⟨2, 401, "/analytics/users", none⟩ 1
      rfl rfl rfl
  · exact token_refresh_single_flight.2.2.2.1
      [.respError ⟨⟨1, "/analytics/commits", false⟩, 401, none⟩] ⟨some 1, []⟩
      [ApiIndex.Action.markRetry 1, ApiIndex.Action.startRefresh] rfl
  · exact token_refresh_single_flight.2.2.2.2.1 ⟨some 1, []⟩ ⟨some 1, [2]⟩
      (.respError ⟨⟨2, "/analytics/users", false⟩, 401, none⟩) [ApiIndex.Action.enqueue 2] 1
      rfl rfl
  · exact token_refresh_single_flight.2.2.2.2.2 ⟨some 1, []⟩
      ⟨⟨2, "/analytics/users", false⟩, 401, none⟩ 1 rfl rfl rfl rfl rfl rfl

/-- C2: In both clients, when the in-flight refresh resolves with a new
token, the queued requests are replayed exactly then: the replay action is
emitted only by the refresh-resolution step, it replays precisely the
queued ids in queue order, each with header `Bearer <new token>`; and
along any trace from the initial state the queue holds (a suffix of) the
enqueued ids in arrival order. -/
theorem queued_replay_after_refresh :
    (∀ (st st1 : RequestJs.ModuleState) (t : String) (acts : List RequestJs.Action),
      RequestJs.step st (.refreshSuccess t) = some (st1, acts) →
      ∃ cur, st.refreshing = some cur
        ∧ acts = [.replayQueued st.requests ("Bearer " ++ t),
                  .retryCurrent cur ("Bearer " ++ t)]
        ∧ st1.requests = [])
    ∧ (∀ (st st1 : RequestJs.ModuleState) (ev : RequestJs.Event)
        (acts : List RequestJs.Action) (q : List Nat) (a : String),
      RequestJs.step st ev = some (st1, acts) →
      RequestJs.Action.replayQueued q a ∈ acts →
      ∃ t, ev = .refreshSuccess t ∧ q = st.requests ∧ a = "Bearer " ++ t)
    ∧ (∀ (evs : List RequestJs.Event) (st : RequestJs.ModuleState)
        (acts : List RequestJs.Action),
      RequestJs.exec RequestJs.initState evs = some (st, acts) →
      st.requests <:+ RequestJs.enqueueIds acts)
    ∧ (∀ (st st1 : ApiIndex.ModuleState) (t : String) (acts : List ApiIndex.Action),
      ApiIndex.step st (.refreshSuccess t) = some (st1, acts) →
      ∃ cur, st.refreshing = some cur
        ∧ acts = [.resolveQueued st.failedQueue ("Bearer " ++ t),
                  .retryCurrent cur ("Bearer " ++ t)]
        ∧ st1.failedQueue = [])
    ∧ (∀ (st st1 : ApiIndex.ModuleState) (ev : ApiIndex.Event)
        (acts : List ApiIndex.Action) (q : List Nat) (a : String),
      ApiIndex.step st ev = some (st1, acts) →
      ApiIndex.Action.resolveQueued q a ∈ acts →
      ∃ t, ev = .refreshSuccess t ∧ q = st.failedQueue ∧ a = "Bearer " ++ t)
    ∧ (∀ (evs : List ApiIndex.Event) (st : ApiIndex.ModuleState)
        (acts : List ApiIndex.Action),
      ApiIndex.exec ApiIndex.initState evs = some (st, acts) →
      st.failedQueue <:+ ApiIndex.enqueueIds acts) := by
  refine ⟨?_, ?_, ?_, ?_, ?_, ?_⟩
  · intro st st1 t acts h
    cases hr : st.refreshing with
    | none => simp [RequestJs.step, RequestJs.handleRefreshSuccess, hr] at h
    | some cur =>
      simp [RequestJs.step, RequestJs.handleRefreshSuccess, hr] at h
      obtain ⟨h1, h2⟩ := h
      subst h1
      subst h2
      exact ⟨cur, rfl, rfl, rfl⟩
  · intro st st1 ev acts q a h hmem
    cases ev with
    | respError e =>
      have he : RequestJs.handleError st e = (st1, acts) := by
        simpa [RequestJs.step] using h
      have := rj_handleError_no_replay st e q a
      rw [he] at this
      exact absurd hmem this
    | refreshSuccess t =>
      cases hr : st.refreshing with
      | none => simp [RequestJs.step, RequestJs.handleRefreshSuccess, hr] at h
      | some cur =>
        simp [RequestJs.step, RequestJs.handleRefreshSuccess, hr] at h
        obtain ⟨h1, h2⟩ := h
        subst h2
        simp at hmem
        exact ⟨t, rfl, hmem.1, hmem.2⟩
    | refreshFailure =>
      cases hr : st.refreshing with
      | none => simp [RequestJs.step, RequestJs.handleRefreshFailure, hr] at h
      | some cur =>
        simp [RequestJs.step, RequestJs.handleRefreshFailure, hr] at h
        obtain ⟨h1, h2⟩ := h
        subst h2
        simp at hmem
  · intro evs st acts h
    have h1 := rj_exec_queue evs RequestJs.initState st acts h
    simpa [RequestJs.initState] using h1
  · intro st st1 t acts h
    cases hr : st.refreshing with
    | none => simp [ApiIndex.step, ApiIndex.handleRefreshSuccess, hr] at h
    | some cur =>
      simp [ApiIndex.step, ApiIndex.handleRefreshSuccess, hr] at h
      obtain ⟨h1, h2⟩ := h
      subst h1
      subst h2
      exact ⟨cur, rfl, rfl, rfl⟩
  · intro st st1 ev acts q a h hmem
    cases ev with
    | respError e =>
      have he : ApiIndex.handleError st e = (st1, acts) := by
        simpa [ApiIndex.step] using h
      have := api_handleError_no_resolveQueued st e q a
      rw [he] at this
      exact absurd hmem this
    | refreshSuccess t =>
      cases hr : st.refreshing with
      | none => simp [ApiIndex.step, ApiIndex.handleRefreshSuccess, hr] at h
      | some cur =>
        simp [ApiIndex.step, ApiIndex.handleRefreshSuccess, hr] at h
        obtain ⟨h1, h2⟩ := h
        subst h2
        simp at hmem
        exact ⟨t, rfl, hmem.1, hmem.2⟩
    | refreshFailure =>
      cases hr : st.refreshing with
      | none => simp [ApiIndex.step, ApiIndex.handleRefreshFailure, hr] at h
      | some cur =>
        simp [ApiIndex.step, ApiIndex.handleRefreshFailure, hr] at h
        obtain ⟨h1, h2⟩ := h
        subst h2
        simp at hmem
  · intro evs st acts h
    have h1 := api_exec_queue evs ApiIndex.initState st acts h
    simpa [ApiIndex.initState] using h1

/-- Witness for C2 at a concrete state: with requests 2 and 3 queued (in
that order) and request 1 having initiated the refresh, the resolution
step with token `t9` replays `[2, 3]` in order with header `Bearer t9`,
then re-sends request 1, and empties the queue. -/
theorem queued_replay_after_refresh_witness :
    (∃ cur, (⟨some 1, [2, 3]⟩ : RequestJs.ModuleState).refreshing = some cur
      ∧ [RequestJs.Action.replayQueued [2, 3] "Bearer t9",
         RequestJs.Action.retryCurrent 1 "Bearer t9"]
        = [RequestJs.Action.replayQueued (⟨some 1, [2, 3]⟩ : RequestJs.ModuleState).requests
             ("Bearer " ++ "t9"),
           RequestJs.Action.retryCurrent cur ("Bearer " ++ "t9")]
      ∧ (⟨none, []⟩ : RequestJs.ModuleState).requests = [])
    ∧ (∃ cur, (⟨some 1, [2, 3]⟩ : ApiIndex.ModuleState).refreshing = some cur
      ∧ [ApiIndex.Action.resolveQueued [2, 3] "Bearer t9",
         ApiIndex.Action.retryCurrent 1 "Bearer t9"]
        = [ApiIndex.Action.resolveQueued (⟨some 1, [2, 3]⟩ : ApiIndex.ModuleState).failedQueue
             ("Bearer " ++ "t9"),
           ApiIndex.Action.retryCurrent cur ("Bearer " ++ "t9")]
      ∧ (⟨none, []⟩ : ApiIndex.ModuleState).failedQueue = [])
    ∧ (⟨some 1, [2, 3]⟩ : RequestJs.ModuleState).requests
        <:+ RequestJs.enqueueIds
          [RequestJs.Action.startRefresh, RequestJs.Action.enqueue 2,
           RequestJs.Action.enqueue 3] := by
  refine ⟨?_, ?_, ?_⟩
  · obtain ⟨cur, hcur, hacts, hnil⟩ := queued_replay_after_refresh.1
      ⟨some 1, [2, 3]⟩ ⟨none, []⟩ "t9"
      [RequestJs.Action.replayQueued [2, 3] "Bearer t9",
       RequestJs.Action.retryCurrent 1 "Bearer t9"] rfl
    exact ⟨cur, hcur, by rw [← hacts], hnil⟩
  · obtain ⟨cur, hcur, hacts, hnil⟩ := queued_replay_after_refresh.2.2.2.1
      ⟨some 1, [2, 3]⟩ ⟨none, []⟩ "t9"
      [ApiIndex.Action.resolveQueued [2, 3] "Bearer t9",
       ApiIndex.Action.retryCurrent 1 "Bearer t9"] rfl
    exact ⟨cur, hcur, by rw [← hacts], hnil⟩
  · exact queued_replay_after_refresh.2.2.1
      [.respError ⟨1, 401, "/analytics/commits", none⟩,
       .respError ⟨2, 401, "/analytics/users", none⟩,
       .respError ⟨3, 401, "/analytics/hours", none⟩]
      ⟨some 1, [2, 3]⟩
      [RequestJs.Action.startRefresh, RequestJs.Action.enqueue 2,
       RequestJs.Action.enqueue 3] rfl

/-- C3 (evaluation at the failing input): in `request.js`, when request 1
starts a refresh, request 2 is queued, and the refresh then fails, the
emitted actions clear credentials, redirect to login and reject request 1
— but no action ever settles request 2: its queued callback is discarded
by `requests = []` and its promise (which has no reject path) stays
pending forever. By contrast, the same scenario in `api/index.js` rejects
the queued request 2 via `processQueue(refreshError)`. -/
theorem requestjs_refresh_failure_leaves_queued_pending :
    RequestJs.exec RequestJs.initState
      [.respError ⟨1, 401, "/analytics/commits", none⟩,
       .respError ⟨2, 401, "/analytics/users", none⟩,
       .refreshFailure]
      = some (⟨none, []⟩,
        [.startRefresh, .enqueue 2, .resetToken, .redirectLogin, .reject 1])
    ∧ List.all
        [RequestJs.Action.startRefresh, .enqueue 2, .resetToken, .redirectLogin, .reject 1]
        (fun a => !RequestJs.settles a 2) = true
    ∧ ApiIndex.exec ApiIndex.initState
        [.respError ⟨⟨1, "/analytics/commits", false⟩, 401, none⟩,
         .respError ⟨⟨2, "/analytics/users", false⟩, 401, none⟩,
         .refreshFailure]
      = some (⟨none, []⟩,
        [.markRetry 1, .startRefresh, .enqueue 2, .rejectQueued [2],
         .toast "登录已过期，请重新登录", .clearAuth, .redirectLogin, .reject 1])
    ∧ ApiIndex.settles (.rejectQueued [2]) 2 = true :=
  ⟨rfl, rfl, rfl, rfl⟩

/-- C4 (counterexample): a 401 from a URL containing `/repositories` in
`api/index.js` triggers neither a token refresh nor a logout: the handler
only shows a toast and rejects — no refresh is started, nothing is
queued, credentials are not cleared and there is no redirect. -/
theorem http_401_carveout_counterexample :
    ApiIndex.handleError ApiIndex.initState
        ⟨⟨1, "/repositories/123/commits", false⟩, 401, none⟩
      = (ApiIndex.initState, [.toast "访问云效API失败，请检查集成配置", .reject 1])
    ∧ ApiIndex.countStart
        [ApiIndex.Action.toast "访问云效API失败，请检查集成配置", .reject 1] = 0
    ∧ ApiIndex.enqueueIds
        [ApiIndex.Action.toast "访问云效API失败，请检查集成配置", .reject 1] = []
    ∧ ApiIndex.Action.clearAuth
        ∉ [ApiIndex.Action.toast "访问云效API失败，请检查集成配置", .reject 1]
    ∧ ApiIndex.Action.redirectLogin
        ∉ [ApiIndex.Action.toast "访问云效API失败，请检查集成配置", .reject 1] :=
  ⟨rfl, rfl, rfl, by simp, by simp⟩

/-- C4 (amended): for every HTTP error response, a 401 triggers starting a
token refresh, joining the in-flight refresh queue, or a logout (clear
credentials and redirect to login) — except that in `api/index.js` a 401
whose URL contains `/repositories` or `/integrations` only surfaces a
toast and rejects — and 403, 404 and 5xx statuses surface as toast
notifications in both clients. -/
theorem http_status_error_handling :
    (∀ (st : RequestJs.ModuleState) (e : RequestJs.ErrResponse),
      e.status = 401 →
      RequestJs.Action.startRefresh ∈ (RequestJs.handleError st e).2
        ∨ RequestJs.Action.enqueue e.id ∈ (RequestJs.handleError st e).2
        ∨ (RequestJs.Action.resetToken ∈ (RequestJs.handleError st e).2
           ∧ RequestJs.Action.redirectLogin ∈ (RequestJs.handleError st e).2))
    ∧ (∀ (st : RequestJs.ModuleState) (e : RequestJs.ErrResponse),
      e.status = 403 ∨ e.status = 404 ∨ (500 ≤ e.status ∧ e.status ≤ 599) →
      RequestJs.hasToast (RequestJs.handleError st e).2 = true)
    ∧ (∀ (st : ApiIndex.ModuleState) (e : ApiIndex.ErrResponse),
      e.status = 401 →
      jsIncludes e.config.url "/repositories" = false →
      jsIncludes e.config.url "/integrations" = false →
      ApiIndex.Action.startRefresh ∈ (ApiIndex.handleError st e).2
        ∨ ApiIndex.Action.enqueue e.config.id ∈ (ApiIndex.handleError st e).2
        ∨ (ApiIndex.Action.clearAuth ∈ (ApiIndex.handleError st e).2
           ∧ ApiIndex.Action.redirectLogin ∈ (ApiIndex.handleError st e).2))
    ∧ (∀ (st : ApiIndex.ModuleState) (e : ApiIndex.ErrResponse),
      e.status = 401 →
      jsIncludes e.config.url "/auth/refresh" = false →
      (jsIncludes e.config.url "/repositories" = true
        ∨ jsIncludes e.config.url "/integrations" = true) →
      ApiIndex.handleError st e
        = (st, [.toast (jsOr e.dataMessage "访问云效API失败，请检查集成配置"),
                .reject e.config.id]))
    ∧ (∀ (st : ApiIndex.ModuleState) (e : ApiIndex.ErrResponse),
      e.status = 403 ∨ e.status = 404 ∨ (500 ≤ e.status ∧ e.status ≤ 599) →
      ApiIndex.hasToast (ApiIndex.handleError st e).2 = true) := by
  refine ⟨?_, ?_, ?_, ?_, ?_⟩
  · intro st e h401
    unfold RequestJs.handleError
    by_cases hinc : jsIncludes e.url "/auth/refresh" = false
    · cases hr : st.refreshing <;> simp [h401, hinc, hr]
    · simp at hinc
      simp [h401, hinc]
  · intro st e hst
    have h401 : ¬(e.status = 401) := by omega
    unfold RequestJs.handleError
    simp [h401]
    rcases hst with h | h | h
    all_goals simp [h, RequestJs.hasToast]
  · intro st e h401 hrep hint
    unfold ApiIndex.handleError
    by_cases hrf : jsIncludes e.config.url "/auth/refresh" = true
    · simp [h401, hrf]
    · by_cases hret : e.config.retry = true
      · simp [h401, hrf, hrep, hint, hret]
      · cases hr : st.refreshing <;> simp [h401, hrf, hrep, hint, hret, hr]
  · intro st e h401 hrf hcv
    unfold ApiIndex.handleError
    simp [h401, hrf, hcv]
  · intro st e hst
    have h401 : ¬(e.status = 401) := by omega
    unfold ApiIndex.handleError
    simp [h401]
    rcases hst with h | h | h
    · simp [h, ApiIndex.hasToast]
    · simp [h, ApiIndex.hasToast]
    · by_cases h403 : e.status = 403
      · simp [h403, ApiIndex.hasToast]
      · by_cases h404 : e.status = 404
        · simp [h404, ApiIndex.hasToast]
        · by_cases h500 : e.status = 500
          · simp [h403, h404, h500, ApiIndex.hasToast]
          · simp [h403, h404, h500, ApiIndex.hasToast]

/-- Witness for the amended C4 at concrete inputs: a fresh 401 in
`request.js` enters the refresh path; a 404 in `request.js` and a 503 in
`api/index.js` produce toasts; a 401 on `/integrations/5` in
`api/index.js` is toast-only. -/
theorem http_status_error_handling_witness :
    (RequestJs.Action.startRefresh
        ∈ (RequestJs.handleError ⟨none, []⟩ ⟨1, 401, "/analytics/commits", none⟩).2
      ∨ RequestJs.Action.enqueue 1
        ∈ (RequestJs.handleError ⟨none, []⟩ ⟨1, 401, "/analytics/commits", none⟩).2
      ∨ (RequestJs.Action.resetToken
          ∈ (RequestJs.handleError ⟨none, []⟩ ⟨1, 401, "/analytics/commits", none⟩).2
         ∧ RequestJs.Action.redirectLogin
          ∈ (RequestJs.handleError ⟨none, []⟩ ⟨1, 401, "/analytics/commits", none⟩).2))
    ∧ RequestJs.hasToast
        (RequestJs.handleError ⟨none, []⟩ ⟨1, 404, "/analytics/commits", none⟩).2 = true
    ∧ ApiIndex.handleError ⟨none, []⟩ ⟨⟨1, "/integrations/5", false⟩, 401, none⟩
        = (⟨none, []⟩, [.toast "访问云效API失败，请检查集成配置", .reject 1])
    ∧ ApiIndex.hasToast
        (ApiIndex.handleError ⟨none, []⟩ ⟨⟨1, "/analytics/commits", false⟩, 503, none⟩).2
        = true := by
  refine ⟨?_, ?_, ?_, ?_⟩
  · exact http_status_error_handling.1 ⟨none, []⟩ ⟨1, 401, "/analytics/commits", none⟩ rfl
  · exact http_status_error_handling.2.1 ⟨none, []⟩ ⟨1, 404, "/analytics/commits", none⟩
      (Or.inr (Or.inl rfl))
  · have h := http_status_error_handling.2.2.2.1 ⟨none, []⟩
      ⟨⟨1, "/integrations/5", false⟩, 401, none⟩ rfl rfl (Or.inr rfl)
    simpa using h
  · exact http_status_error_handling.2.2.2.2 ⟨none, []⟩
      ⟨⟨1, "/analytics/commits", false⟩, 503, none⟩ (Or.inr (Or.inr (by decide)))

/-- C5: in both clients, a 401 whose request URL contains `/auth/refresh`
never enters the refresh-and-queue flow: `request.js` dispatches
`auth/resetToken` and redirects to `/login` (then toasts and rejects), and
`api/index.js` toasts, calls `clearAuth()` and redirects to `/login`; in
both, the module state is unchanged — no refresh starts and nothing is
queued. -/
theorem refresh_endpoint_401_logs_out :
    (∀ (st : RequestJs.ModuleState) (e : RequestJs.ErrResponse),
      e.status = 401 → jsIncludes e.url "/auth/refresh" = true →
      RequestJs.handleError st e
        = (st, [.resetToken, .redirectLogin, .toast "未授权，请重新登录", .reject e.id]))
    ∧ (∀ (st : ApiIndex.ModuleState) (e : ApiIndex.ErrResponse),
      e.status = 401 → jsIncludes e.config.url "/auth/refresh" = true →
      ApiIndex.handleError st e
        = (st, [.toast "登录已过期，请重新登录", .clearAuth, .redirectLogin,
                .reject e.config.id])) := by
  constructor
  · intro st e h401 hinc
    simp [RequestJs.handleError, RequestJs.switchMessage, h401, hinc]
  · intro st e h401 hinc
    simp [ApiIndex.handleError, h401, hinc]

/-- Witness for C5: a 401 from `/api/auth/refresh` at concrete states. -/
theorem refresh_endpoint_401_logs_out_witness :
    RequestJs.handleError ⟨none, []⟩ ⟨7, 401, "/api/auth/refresh", none⟩
      = (⟨none, []⟩, [.resetToken, .redirectLogin, .toast "未授权，请重新登录", .reject 7])
    ∧ ApiIndex.handleError ⟨none, []⟩ ⟨⟨7, "/api/auth/refresh", false⟩, 401, none⟩
      = (⟨none, []⟩, [.toast "登录已过期，请重新登录", .clearAuth, .redirectLogin, .reject 7]) :=
  ⟨refresh_endpoint_401_logs_out.1 ⟨none, []⟩ ⟨7, 401, "/api/auth/refresh", none⟩ rfl rfl,
   refresh_endpoint_401_logs_out.2 ⟨none, []⟩ ⟨⟨7, "/api/auth/refresh", false⟩, 401, none⟩
     rfl rfl⟩

/-- C6 (counterexample): in `request.js` there is no retry guard. After
request 1 starts a refresh and is replayed on success, its second 401
starts a second refresh-and-replay cycle for the same request instead of
logging out: two refreshes are started and no credential clearing or
login redirect ever happens. -/
theorem requestjs_double_retry_counterexample :
    RequestJs.exec RequestJs.initState
      [.respError ⟨1, 401, "/analytics/commits", none⟩,
       .refreshSuccess "t1",
       .respError ⟨1, 401, "/analytics/commits", none⟩]
      = some (⟨some 1, []⟩,
        [.startRefresh, .replayQueued [] "Bearer t1", .retryCurrent 1 "Bearer t1",
         .startRefresh])
    ∧ RequestJs.countStart
        [RequestJs.Action.startRefresh, .replayQueued [] "Bearer t1",
         .retryCurrent 1 "Bearer t1", .startRefresh] = 2
    ∧ RequestJs.Action.resetToken
        ∉ [RequestJs.Action.startRefresh, .replayQueued [] "Bearer t1",
           .retryCurrent 1 "Bearer t1", .startRefresh]
    ∧ RequestJs.Action.redirectLogin
        ∉ [RequestJs.Action.startRefresh, .replayQueued [] "Bearer t1",
           .retryCurrent 1 "Bearer t1", .startRefresh] :=
  ⟨rfl, rfl, by simp, by simp⟩

/-- C6 (amended): only `api/index.js` guards retries, and only for the
request that initiated a refresh: that request is marked `_retry` when the
refresh starts, and a 401 for a request already marked `_retry` (outside
the refresh endpoint and the `/repositories` / `/integrations` carve-outs)
leads to logout — toast, `clearAuth()`, redirect to `/login`, rejection —
with no second refresh and nothing queued. Requests without the mark
(queued requests in `api/index.js`, and every request in `request.js`,
which has no guard at all) may re-enter the refresh flow. -/
theorem api_retry_guard :
    (∀ (st : ApiIndex.ModuleState) (e : ApiIndex.ErrResponse),
      e.status = 401 →
      jsIncludes e.config.url "/auth/refresh" = false →
      jsIncludes e.config.url "/repositories" = false →
      jsIncludes e.config.url "/integrations" = false →
      e.config.retry = true →
      ApiIndex.handleError st e
        = (st, [.toast "登录已过期，请重新登录", .clearAuth, .redirectLogin,
                .reject e.config.id]))
    ∧ (∀ (st : ApiIndex.ModuleState) (e : ApiIndex.ErrResponse),
      e.status = 401 →
      jsIncludes e.config.url "/auth/refresh" = false →
      jsIncludes e.config.url "/repositories" = false →
      jsIncludes e.config.url "/integrations" = false →
      e.config.retry = false →
      st.refreshing = none →
      ApiIndex.handleError st e
        = (⟨some e.config.id, st.failedQueue⟩,
           [.markRetry e.config.id, .startRefresh])) := by
  constructor
  · intro st e h401 hrf hrep hint hret
    simp [ApiIndex.handleError, h401, hrf, hrep, hint, hret]
  · intro st e h401 hrf hrep hint hret hr
    simp [ApiIndex.handleError, h401, hrf, hrep, hint, hret, hr]

/-- Witness for the amended C6: a retry-marked 401 on `/analytics/commits`
logs out; the same unmarked request in the idle state is marked and starts
the refresh. -/
theorem api_retry_guard_witness :
    ApiIndex.handleError ⟨none, []⟩ ⟨⟨5, "/analytics/commits", true⟩, 401, none⟩
      = (⟨none, []⟩, [.toast "登录已过期，请重新登录", .clearAuth, .redirectLogin, .reject 5])
    ∧ ApiIndex.handleError ⟨none, []⟩ ⟨⟨5, "/analytics/commits", false⟩, 401, none⟩
      = (⟨some 5, []⟩, [.markRetry 5, .startRefresh]) :=
  ⟨api_retry_guard.1 ⟨none, []⟩ ⟨⟨5, "/analytics/commits", true⟩, 401, none⟩
     rfl rfl rfl rfl rfl,
   api_retry_guard.2 ⟨none, []⟩ ⟨⟨5, "/analytics/commits", false⟩, 401, none⟩
     rfl rfl rfl rfl rfl rfl⟩

/-- C7 (counterexample): in `api/index.js`, a request to the refresh
endpoint is passed through the request interceptor unchanged even though
an access token is present, so its Authorization header is not set to
`Bearer <token>`. -/
theorem api_refresh_interceptor_counterexample :
    UtilsAuth.getToken ⟨[("coding_efficiency_token", "tok")], [], []⟩ = some "tok"
    ∧ ApiIndex.requestInterceptor ⟨[("coding_efficiency_token", "tok")], [], []⟩
        ⟨"/auth/refresh", []⟩
      = ⟨"/auth/refresh", []⟩
    ∧ storeGet (ApiIndex.requestInterceptor ⟨[("coding_efficiency_token", "tok")], [], []⟩
        ⟨"/auth/refresh", []⟩).headers "Authorization"
      ≠ some ("Bearer " ++ "tok") :=
  ⟨rfl, rfl, by decide⟩

/-- C7 (amended): whenever `getToken()` returns a (truthy) token, the
`request.js` interceptor sets the outgoing Authorization header to
`Bearer <token>`, and so does the `api/index.js` interceptor for every
request whose URL does not contain `/auth/refresh`; a request whose URL
contains `/auth/refresh` is passed through `api/index.js` unchanged. -/
theorem bearer_header_attachment :
    (∀ (b : Browser) (cfg : OutConfig) (t : String),
      UtilsAuth.getToken b = some t → t ≠ "" →
      storeGet (RequestJs.requestInterceptor b cfg).headers "Authorization"
        = some ("Bearer " ++ t))
    ∧ (∀ (b : Browser) (cfg : OutConfig) (t : String),
      jsIncludes cfg.url "/auth/refresh" = false →
      UtilsAuth.getToken b = some t → t ≠ "" →
      storeGet (ApiIndex.requestInterceptor b cfg).headers "Authorization"
        = some ("Bearer " ++ t))
    ∧ (∀ (b : Browser) (cfg : OutConfig),
      jsIncludes cfg.url "/auth/refresh" = true →
      ApiIndex.requestInterceptor b cfg = cfg) := by
  refine ⟨?_, ?_, ?_⟩
  · intro b cfg t ht hne
    unfold RequestJs.requestInterceptor
    rw [ht]
    simp [hne]
    rw [storeGet_storeSet_ne _ _ _ _ (by decide)]
    exact storeGet_storeSet_self _ _ _
  · intro b cfg t hrf ht hne
    unfold ApiIndex.requestInterceptor
    rw [hrf]
    simp [ht, hne]
    exact storeGet_storeSet_self _ _ _
  · intro b cfg hrf
    unfold ApiIndex.requestInterceptor
    simp [hrf]

/-- Witness for the amended C7: with the access-token cookie set to `tok`,
both interceptors attach `Bearer tok` to a `/analytics/commits` request,
and `api/index.js` passes a `/auth/refresh` request through unchanged. -/
theorem bearer_header_attachment_witness :
    storeGet (RequestJs.requestInterceptor ⟨[("coding_efficiency_token", "tok")], [], []⟩
        ⟨"/analytics/commits", []⟩).headers "Authorization"
      = some ("Bearer " ++ "tok")
    ∧ storeGet (ApiIndex.requestInterceptor ⟨[("coding_efficiency_token", "tok")], [], []⟩
        ⟨"/analytics/commits", []⟩).headers "Authorization"
      = some ("Bearer " ++ "tok")
    ∧ ApiIndex.requestInterceptor ⟨[("coding_efficiency_token", "tok")], [], []⟩
        ⟨"/auth/refresh", []⟩
      = ⟨"/auth/refresh", []⟩ :=
  ⟨bearer_header_attachment.1 ⟨[("coding_efficiency_token", "tok")], [], []⟩
     ⟨"/analytics/commits", []⟩ "tok" rfl (by decide),
   bearer_header_attachment.2.1 ⟨[("coding_efficiency_token", "tok")], [], []⟩
     ⟨"/analytics/commits", []⟩ "tok" rfl rfl (by decide),
   bearer_header_attachment.2.2 ⟨[("coding_efficiency_token", "tok")], [], []⟩
     ⟨"/auth/refresh", []⟩ rfl⟩

theorem removeToken_cookies (b : Browser) :
    storeGet (UtilsAuth.removeToken b).cookies UtilsAuth.TokenKey = none
    ∧ storeGet (UtilsAuth.removeToken b).cookies UtilsAuth.RefreshTokenKey = none := by
  unfold UtilsAuth.removeToken
  constructor
  · rw [storeGet_storeRemove_ne _ _ _ (by decide)]
    exact storeGet_storeRemove_self _ _
  · exact storeGet_storeRemove_self _ _

/-- C8: the browser-local persistence is split as stated. The access and
refresh tokens are read from and written to cookies (`getToken` /
`setToken` on the `coding_efficiency_token` cookie, `getRefreshToken` /
`setRefreshToken` on the `coding_efficiency_refresh_token` cookie, neither
touching localStorage or sessionStorage), while `setUserInfo` stores the
profile as a JSON string in localStorage under `user_info` without
touching cookies, and `getUserInfo` reads it back — shown round-trip on a
concrete profile. -/
theorem token_and_profile_persistence_split :
    (∀ b : Browser,
      UtilsAuth.getToken b = storeGet b.cookies UtilsAuth.TokenKey
      ∧ UtilsAuth.getRefreshToken b = storeGet b.cookies UtilsAuth.RefreshTokenKey)
    ∧ (∀ (b : Browser) (t : String),
      UtilsAuth.getToken (UtilsAuth.setToken b t) = some t
      ∧ (UtilsAuth.setToken b t).localStorage = b.localStorage
      ∧ (UtilsAuth.setToken b t).sessionStorage = b.sessionStorage)
    ∧ (∀ (b : Browser) (t : String),
      UtilsAuth.getRefreshToken (UtilsAuth.setRefreshToken b t) = some t
      ∧ (UtilsAuth.setRefreshToken b t).localStorage = b.localStorage
      ∧ (UtilsAuth.setRefreshToken b t).sessionStorage = b.sessionStorage)
    ∧ (∀ (b : Browser) (u : Json),
      storeGet (UtilsAuth.setUserInfo b u).localStorage "user_info"
        = some (jsonStringify u)
      ∧ (UtilsAuth.setUserInfo b u).cookies = b.cookies
      ∧ (UtilsAuth.setUserInfo b u).sessionStorage = b.sessionStorage)
    ∧ UtilsAuth.getUserInfo
        (UtilsAuth.setUserInfo emptyBrowser
          (Json.obj [("id", Json.num 1), ("username", Json.str "alice")]))
      = some (Json.obj [("id", Json.num 1), ("username", Json.str "alice")]) := by
  refine ⟨?_, ?_, ?_, ?_, ?_⟩
  · intro b
    exact ⟨rfl, rfl⟩
  · intro b t
    exact ⟨storeGet_storeSet_self _ _ _, rfl, rfl⟩
  · intro b t
    exact ⟨storeGet_storeSet_self _ _ _, rfl, rfl⟩
  · intro b u
    exact ⟨storeGet_storeSet_self _ _ _, rfl, rfl⟩
  · rfl

/-- C9: `getUserInfo` is total over every localStorage content: it returns
the value of the try-block body when the body does not throw, returns
`null` when the body throws (the catch), and always yields either the
parsed object or `null`. -/
theorem getUserInfo_total (b : Browser) :
    (∀ v, UtilsAuth.getUserInfoBody b = .ok v → UtilsAuth.getUserInfo b = v)
    ∧ (∀ m, UtilsAuth.getUserInfoBody b = .error m → UtilsAuth.getUserInfo b = none)
    ∧ (UtilsAuth.getUserInfo b = none
       ∨ ∃ j, UtilsAuth.getUserInfo b = some j
           ∧ UtilsAuth.getUserInfoBody b = .ok (some j)) := by
  refine ⟨?_, ?_, ?_⟩
  · intro v hv
    simp [UtilsAuth.getUserInfo, hv]
  · intro m hm
    simp [UtilsAuth.getUserInfo, hm]
  · cases hb : UtilsAuth.getUserInfoBody b with
    | ok v =>
      cases v with
      | none => exact Or.inl (by simp [UtilsAuth.getUserInfo, hb])
      | some j =>
        refine Or.inr ⟨j, ?_, rfl⟩
        simp [UtilsAuth.getUserInfo, hb]
    | error m => exact Or.inl (by simp [UtilsAuth.getUserInfo, hb])

/-- Witness for C9: on a localStorage holding the malformed JSON `oops`
the try-block body throws, and `getUserInfo` returns `null`. -/
theorem getUserInfo_total_witness :
    UtilsAuth.getUserInfoBody ⟨[], [("user_info", "oops")], []⟩
      = .error "unexpected character"
    ∧ UtilsAuth.getUserInfo ⟨[], [("user_info", "oops")], []⟩ = none :=
  ⟨rfl,
   (getUserInfo_total ⟨[], [("user_info", "oops")], []⟩).2.1 "unexpected character" rfl⟩

/-- C10: the store's `refreshToken` action on success changes only the
access token — `state.token` becomes the new `access_token` and the
access-token cookie is rewritten, while `state.refreshToken`, the
refresh-token cookie, `state.user`, `state.permissions`, localStorage and
sessionStorage are unchanged and the new token is returned; on any
failure (API rejection or missing refresh token) the whole auth state is
cleared — all four state fields reset and both token cookies removed —
and the error is re-thrown. -/
theorem refresh_action_frame_effect :
    (∀ (st : StoreAuth.AuthState) (b : Browser) (t : String),
      jsTruthy st.refreshToken = true →
      (StoreAuth.refreshTokenAction st b (.ok t)).1.token = some t
      ∧ (StoreAuth.refreshTokenAction st b (.ok t)).1.refreshToken = st.refreshToken
      ∧ (StoreAuth.refreshTokenAction st b (.ok t)).1.user = st.user
      ∧ (StoreAuth.refreshTokenAction st b (.ok t)).1.permissions = st.permissions
      ∧ storeGet (StoreAuth.refreshTokenAction st b (.ok t)).2.1.cookies
          UtilsAuth.TokenKey = some t
      ∧ storeGet (StoreAuth.refreshTokenAction st b (.ok t)).2.1.cookies
          UtilsAuth.RefreshTokenKey = storeGet b.cookies UtilsAuth.RefreshTokenKey
      ∧ (StoreAuth.refreshTokenAction st b (.ok t)).2.1.localStorage = b.localStorage
      ∧ (StoreAuth.refreshTokenAction st b (.ok t)).2.1.sessionStorage = b.sessionStorage
      ∧ (StoreAuth.refreshTokenAction st b (.ok t)).2.2 = .ok t)
    ∧ (∀ (st : StoreAuth.AuthState) (b : Browser) (api : Except Unit String),
      (api = .error () ∨ jsTruthy st.refreshToken = false) →
      (StoreAuth.refreshTokenAction st b api).1.token = none
      ∧ (StoreAuth.refreshTokenAction st b api).1.refreshToken = none
      ∧ (StoreAuth.refreshTokenAction st b api).1.user = none
      ∧ (StoreAuth.refreshTokenAction st b api).1.permissions = []
      ∧ storeGet (StoreAuth.refreshTokenAction st b api).2.1.cookies
          UtilsAuth.TokenKey = none
      ∧ storeGet (StoreAuth.refreshTokenAction st b api).2.1.cookies
          UtilsAuth.RefreshTokenKey = none
      ∧ (StoreAuth.refreshTokenAction st b api).2.2 = .error ()) := by
  constructor
  · intro st b t h
    have hres : StoreAuth.refreshTokenAction st b (.ok t)
        = (StoreAuth.SET_TOKEN st t, UtilsAuth.setToken b t, .ok t) := by
      simp [StoreAuth.refreshTokenAction, h]
    rw [hres]
    refine ⟨rfl, rfl, rfl, rfl, ?_, ?_, rfl, rfl, rfl⟩
    · exact storeGet_storeSet_self _ _ _
    · exact storeGet_storeSet_ne _ _ _ _ (by decide)
  · intro st b api hyp
    have hres : StoreAuth.refreshTokenAction st b api
        = (⟨none, none, none, []⟩, UtilsAuth.removeToken (UtilsAuth.removeUserInfo b),
           .error ()) := by
      by_cases htr : jsTruthy st.refreshToken = false
      · simp [StoreAuth.refreshTokenAction, htr, StoreAuth.CLEAR_AUTH]
      · rcases hyp with hapi | hapi
        · subst hapi
          simp [StoreAuth.refreshTokenAction, htr, StoreAuth.CLEAR_AUTH]
        · exact absurd hapi htr
    rw [hres]
    have hc := removeToken_cookies (UtilsAuth.removeUserInfo b)
    exact ⟨rfl, rfl, rfl, rfl, hc.1, hc.2, rfl⟩

/-- Witness for C10: with refresh token `r1` present, a successful refresh
to `newtok` rewrites only the access token and its cookie; with the API
rejecting, the state is cleared and both cookies removed. -/
theorem refresh_action_frame_effect_witness :
    ((StoreAuth.refreshTokenAction ⟨some "old", some "r1", none, ["p"]⟩
        ⟨[("coding_efficiency_token", "old"), ("coding_efficiency_refresh_token", "r1")],
         [("user_info", "x")], []⟩ (.ok "newtok")).1.token = some "newtok"
     ∧ (StoreAuth.refreshTokenAction ⟨some "old", some "r1", none, ["p"]⟩
        ⟨[("coding_efficiency_token", "old"), ("coding_efficiency_refresh_token", "r1")],
         [("user_info", "x")], []⟩ (.ok "newtok")).1.refreshToken
       = (⟨some "old", some "r1", none, ["p"]⟩ : StoreAuth.AuthState).refreshToken)
    ∧ ((StoreAuth.refreshTokenAction ⟨some "old", some "r1", none, ["p"]⟩
        ⟨[("coding_efficiency_token", "old"), ("coding_efficiency_refresh_token", "r1")],
         [("user_info", "x")], []⟩ (.error ())).1.token = none
     ∧ storeGet (StoreAuth.refreshTokenAction ⟨some "old", some "r1", none, ["p"]⟩
        ⟨[("coding_efficiency_token", "old"), ("coding_efficiency_refresh_token", "r1")],
         [("user_info", "x")], []⟩ (.error ())).2.1.cookies
         UtilsAuth.RefreshTokenKey = none) := by
  constructor
  · have h := refresh_action_frame_effect.1 ⟨some "old", some "r1", none, ["p"]⟩
      ⟨[("coding_efficiency_token", "old"), ("coding_efficiency_refresh_token", "r1")],
       [("user_info", "x")], []⟩ "newtok" rfl
    exact ⟨h.1, h.2.1⟩
  · have h := refresh_action_frame_effect.2 ⟨some "old", some "r1", none, ["p"]⟩
      ⟨[("coding_efficiency_token", "old"), ("coding_efficiency_refresh_token", "r1")],
       [("user_info", "x")], []⟩ (.error ()) (Or.inl rfl)
    exact ⟨h.1, h.2.2.2.2.2.1⟩
